import Mathlib

/-!
Verification of the Incrypt Arena scoring model.

Shallow embedding of the point-scoring logic of the Incrypt Arena
leaderboard application:

* the `leaderboard` SQL view of the database schema (per-category point
  subqueries, generated point columns of the `courses` and `books` tables,
  total and rank),
* the `useLeaderboard` hook (`fetchLeaderboard`: ordinal rank and the
  last-place flag),
* the `useAdvancedScoring` hook (`calculateStreaks` and
  `calculateAttendanceChampion`),
* the data-entry point assignments of `AddBlogModal`, `PresentationForm`
  and `AddBookModal`.

Dates are embedded as integer day numbers (the sources compare ISO date
strings and millisecond differences; both agree with day arithmetic).
The `total_hours DECIMAL(5,2)` column of `courses` is embedded exactly as
an integer count of hundredths of an hour.  Player, cycle and activity
ids are natural numbers.  The join `players!inner(name)` of the scoring
hooks is embedded as a lookup function from player id to name.
-/

namespace Arena

abbrev PlayerId := Nat

/-- Row of the `players` table (columns used by the scoring logic). -/
structure Player where
  id : PlayerId
  name : String
  far_away : Bool
deriving DecidableEq

/-- Row of the `attendance` table (columns used by the `leaderboard` view
and the scoring hooks).  The `points` column has default 1 and the
check-in flows insert 1. -/
structure Attendance where
  player_id : PlayerId
  cycle_id : Nat
  check_in_date : Int
  is_early_bird : Bool
  points : Int
deriving DecidableEq

/-- Generated column `points` of the `courses` table:
`CASE WHEN completion_percent >= 60 THEN FLOOR((total_hours * completion_percent / 100) * 4) ELSE 0 END`.
Hours are passed in hundredths (`total_hours DECIMAL(5,2)`), so the exact
rational value of the SQL expression is `hours_centi * percent * 4 / 10000`
and its floor is the natural division below. -/
def courses_generated_points (total_hours_centi : Nat) (completion_percent : Nat) : Nat :=
  if 60 ≤ completion_percent then total_hours_centi * completion_percent * 4 / 10000 else 0

/-- Row of the `courses` table. -/
structure Course where
  player_id : PlayerId
  cycle_id : Nat
  total_hours_centi : Nat
  completion_percent : Nat
  verified : Bool
deriving DecidableEq

/-- Row of the `blogs` table.  The `points` column is stored (set by the
blog submission flow), not generated. -/
structure Blog where
  player_id : PlayerId
  cycle_id : Nat
  url : String
  is_first : Bool
  points : Int
deriving DecidableEq

/-- Generated column `points` of the `books` table:
`FLOOR(pages_read / 10)`.  Note that the schema does not reference the
`points_per_10_pages` column of `books_library` here. -/
def books_generated_points (pages_read : Nat) : Nat :=
  pages_read / 10

/-- Row of the `books` table. -/
structure Book where
  player_id : PlayerId
  cycle_id : Nat
  pages_read : Nat
  verified : Bool
deriving DecidableEq

/-- Points preview computed by the user `AddBookModal`:
`Math.floor((parseFloat(pagesRead) || 0) / 10) * selectedBook.points_per_10_pages`. -/
def modalCalculatedPoints (pages_read : Nat) (points_per_10_pages : Nat) : Nat :=
  pages_read / 10 * points_per_10_pages

/-- Row of the `presentations` table (columns used by scoring). -/
structure Presentation where
  player_id : PlayerId
  second_presenter_id : Option PlayerId
  cycle_id : Nat
  is_solo : Bool
  presentation_order : Nat
  points : Int
deriving DecidableEq

/-- Row of the `activity_participations` table. -/
structure ActivityParticipation where
  activity_id : Nat
  player_id : PlayerId
  is_top_performer : Bool
  double_points_used : Bool
  points : Int
deriving DecidableEq

/-- Row of the `ideas` table (columns used by the view). -/
structure Idea where
  player_id : PlayerId
  cycle_id : Nat
  points : Int
  verified : Bool
deriving DecidableEq

/-- Row of the `top_performer_awards` table. -/
structure TopPerformerAward where
  player_id : PlayerId
  cycle_id : Nat
  points : Int
deriving DecidableEq

/-- Row of the `penalties` table. -/
structure Penalty where
  player_id : PlayerId
  cycle_id : Nat
  points : Int
deriving DecidableEq

/-- State of the database tables read by the scoring logic.  The
`active_cycle_id` field embeds the id of the unique row of `cycles` with
`is_active = true`. -/
structure Database where
  active_cycle_id : Nat
  players : List Player
  attendance : List Attendance
  participations : List ActivityParticipation
  courses : List Course
  blogs : List Blog
  books : List Book
  presentations : List Presentation
  ideas : List Idea
  top_performer_awards : List TopPerformerAward
  penalties : List Penalty

/-- Attendance subquery of the `leaderboard` view:
`SUM((points + CASE WHEN is_early_bird THEN 1 ELSE 0 END) * CASE WHEN p.far_away THEN 2 ELSE 1 END)`
over `attendance a WHERE a.player_id = p.id`, with `COALESCE(..., 0)`. -/
def attendance_points (db : Database) (p : Player) : Int :=
  ((db.attendance.filter (fun a => a.player_id == p.id)).map
    (fun a => (a.points + (if a.is_early_bird then 1 else 0)) *
      (if p.far_away then 2 else 1))).sum

/-- Activity subquery of the view: `SUM(points)` over
`activity_participations ap WHERE ap.player_id = p.id`. -/
def activity_points (db : Database) (p : Player) : Int :=
  ((db.participations.filter (fun ap => ap.player_id == p.id)).map
    (fun ap => ap.points)).sum

/-- Course subquery of the view: `SUM(points)` over
`courses c WHERE c.player_id = p.id AND c.verified = true`, the `points`
column being generated. -/
def course_points (db : Database) (p : Player) : Int :=
  ((db.courses.filter (fun c => c.player_id == p.id && c.verified)).map
    (fun c => (courses_generated_points c.total_hours_centi c.completion_percent : Int))).sum

/-- Blog subquery of the view: `SUM(points)` over
`blogs b WHERE b.player_id = p.id`. -/
def blog_points (db : Database) (p : Player) : Int :=
  ((db.blogs.filter (fun b => b.player_id == p.id)).map (fun b => b.points)).sum

/-- Book subquery of the view: `SUM(points)` over
`books bk WHERE bk.player_id = p.id AND bk.verified = true`, the `points`
column being generated. -/
def book_points (db : Database) (p : Player) : Int :=
  ((db.books.filter (fun bk => bk.player_id == p.id && bk.verified)).map
    (fun bk => (books_generated_points bk.pages_read : Int))).sum

/-- Presentation subquery of the view: `SUM(points)` over
`presentations pr WHERE pr.player_id = p.id`. -/
def presentation_points (db : Database) (p : Player) : Int :=
  ((db.presentations.filter (fun pr => pr.player_id == p.id)).map
    (fun pr => pr.points)).sum

/-- Idea subquery of the view: `SUM(points)` over
`ideas i WHERE i.player_id = p.id AND i.verified = true`. -/
def idea_points (db : Database) (p : Player) : Int :=
  ((db.ideas.filter (fun i => i.player_id == p.id && i.verified)).map
    (fun i => i.points)).sum

/-- Top performer subquery of the view: `SUM(points)` over
`top_performer_awards tpa WHERE tpa.player_id = p.id`. -/
def top_performer_points (db : Database) (p : Player) : Int :=
  ((db.top_performer_awards.filter (fun tpa => tpa.player_id == p.id)).map
    (fun tpa => tpa.points)).sum

/-- Penalty subquery of the view: `SUM(points)` over
`penalties pen WHERE pen.player_id = p.id`. -/
def penalty_points (db : Database) (p : Player) : Int :=
  ((db.penalties.filter (fun pen => pen.player_id == p.id)).map
    (fun pen => pen.points)).sum

/-- Total of the view:
`attendance_points + activity_points + course_points + blog_points + book_points + presentation_points + idea_points + top_performer_points + penalty_points`. -/
def total_points (db : Database) (p : Player) : Int :=
  attendance_points db p + activity_points db p + course_points db p +
    blog_points db p + book_points db p + presentation_points db p +
    idea_points db p + top_performer_points db p + penalty_points db p

/-- Window function `RANK() OVER (ORDER BY total DESC)` of the view: one
plus the number of players with a strictly greater total. -/
def view_rank (db : Database) (p : Player) : Nat :=
  1 + (db.players.filter (fun q => total_points db p < total_points db q)).length

/-- Output row of the `leaderboard` view. -/
structure ViewEntry where
  player_id : PlayerId
  player_name : String
  attendance_points : Int
  activity_points : Int
  course_points : Int
  blog_points : Int
  book_points : Int
  presentation_points : Int
  idea_points : Int
  top_performer_points : Int
  penalty_points : Int
  total_points : Int
  rank : Nat
deriving DecidableEq

/-- Row of the `leaderboard` view for one player. -/
def leaderboardRow (db : Database) (p : Player) : ViewEntry :=
  { player_id := p.id
    player_name := p.name
    attendance_points := attendance_points db p
    activity_points := activity_points db p
    course_points := course_points db p
    blog_points := blog_points db p
    book_points := book_points db p
    presentation_points := presentation_points db p
    idea_points := idea_points db p
    top_performer_points := top_performer_points db p
    penalty_points := penalty_points db p
    total_points := total_points db p
    rank := view_rank db p }

/-- Descending order on totals used by `ORDER BY total_points DESC`. -/
def viewGE (a b : ViewEntry) : Prop :=
  b.total_points ≤ a.total_points

instance : DecidableRel viewGE :=
  fun a b => inferInstanceAs (Decidable (b.total_points ≤ a.total_points))

/-- The `leaderboard` view: one row per player, ordered by total points
descending (a deterministic refinement of the unspecified database order
for equal totals). -/
def leaderboard (db : Database) : List ViewEntry :=
  List.insertionSort viewGE (db.players.map (leaderboardRow db))

/-- Entry produced by `fetchLeaderboard` in the `useLeaderboard` hook:
the view row spread together with the overwritten ordinal `rank` and the
computed `is_last_place` flag. -/
structure LeaderboardEntry where
  player_id : PlayerId
  player_name : String
  attendance_points : Int
  activity_points : Int
  course_points : Int
  blog_points : Int
  book_points : Int
  presentation_points : Int
  idea_points : Int
  top_performer_points : Int
  penalty_points : Int
  total_points : Int
  rank : Nat
  is_last_place : Bool
deriving DecidableEq

/-- Spread of a view row with an ordinal rank and a last-place flag, as in
`{...entry, rank: index + 1, is_last_place: ...}`. -/
def toEntry (v : ViewEntry) (rank : Nat) (last : Bool) : LeaderboardEntry :=
  { player_id := v.player_id
    player_name := v.player_name
    attendance_points := v.attendance_points
    activity_points := v.activity_points
    course_points := v.course_points
    blog_points := v.blog_points
    book_points := v.book_points
    presentation_points := v.presentation_points
    idea_points := v.idea_points
    top_performer_points := v.top_performer_points
    penalty_points := v.penalty_points
    total_points := v.total_points
    rank := rank
    is_last_place := last }

/-- Index-mapping step of `fetchLeaderboard`:
`rank: index + 1, is_last_place: index === arr.length - 1 && arr.length > 1`
where `n` is the length of the whole fetched array. -/
def markEntries (n : Nat) : Nat → List ViewEntry → List LeaderboardEntry
  | _, [] => []
  | i, v :: rest => toEntry v (i + 1) (decide (i = n - 1 ∧ 1 < n)) :: markEntries n (i + 1) rest

/-- The `fetchLeaderboard` function of the `useLeaderboard` hook: the view
rows ordered by total descending, each spread with its ordinal rank and
the last-place flag. -/
def fetchLeaderboard (db : Database) : List LeaderboardEntry :=
  markEntries (leaderboard db).length 0 (leaderboard db)

/-- Renaming of cycle ids throughout the database, used to state that the
`leaderboard` view reads no `cycle_id` column. -/
def remap_cycles (f : Nat → Nat) (db : Database) : Database :=
  { active_cycle_id := f db.active_cycle_id
    players := db.players
    attendance := db.attendance.map (fun a => { a with cycle_id := f a.cycle_id })
    participations := db.participations
    courses := db.courses.map (fun c => { c with cycle_id := f c.cycle_id })
    blogs := db.blogs.map (fun b => { b with cycle_id := f b.cycle_id })
    books := db.books.map (fun bk => { bk with cycle_id := f bk.cycle_id })
    presentations := db.presentations.map (fun pr => { pr with cycle_id := f pr.cycle_id })
    ideas := db.ideas.map (fun i => { i with cycle_id := f i.cycle_id })
    top_performer_awards := db.top_performer_awards.map (fun t => { t with cycle_id := f t.cycle_id })
    penalties := db.penalties.map (fun pen => { pen with cycle_id := f pen.cycle_id }) }

/-- Attendance row as selected by the scoring hooks
(`player_id, check_in_date`); the joined player name is embedded as a
lookup function. -/
structure CheckInRecord where
  player_id : PlayerId
  check_in_date : Int
deriving DecidableEq

/-- Result element of `calculateStreaks`. -/
structure StreakInfo where
  playerId : PlayerId
  playerName : String
  consecutiveWeeks : Nat
  bonusPoints : Nat
deriving DecidableEq

/-- Result of `calculateAttendanceChampion`. -/
structure ChampionInfo where
  playerId : PlayerId
  playerName : String
  attendanceCount : Nat
  bonusPoints : Nat
deriving DecidableEq

/-- Key order of a JavaScript `Map` built by insertion: every key listed
at its first occurrence, with `seen` accumulating the keys already
inserted. -/
def firstKeysAux (seen : List PlayerId) : List PlayerId → List PlayerId
  | [] => []
  | a :: rest =>
    if a ∈ seen then firstKeysAux seen rest
    else a :: firstKeysAux (a :: seen) rest

/-- Keys of the grouping maps of the scoring hooks, in insertion order. -/
def firstKeys (l : List PlayerId) : List PlayerId :=
  firstKeysAux [] l

/-- Check-in dates accumulated for one player by the grouping loop of
`calculateStreaks`, in record order. -/
def dates_of (recs : List CheckInRecord) (p : PlayerId) : List Int :=
  (recs.filter (fun r => r.player_id == p)).map (fun r => r.check_in_date)

/-- Scan loop of `calculateStreaks`: `daysDiff === 7` extends
`currentStreak` and updates `maxConsecutive`, any other difference resets
`currentStreak` to 1. -/
def streakLoop : Int → Nat → Nat → List Int → Nat
  | _, _, maxC, [] => maxC
  | prev, cur, maxC, d :: rest =>
    if d - prev = 7 then streakLoop d (cur + 1) (max maxC (cur + 1)) rest
    else streakLoop d 1 maxC rest

/-- Value of `maxConsecutive` after the scan of a sorted date list
(both `maxConsecutive` and `currentStreak` start at 1). -/
def maxConsecutive (l : List Int) : Nat :=
  match l with
  | [] => 1
  | d :: rest => streakLoop d 1 1 rest

/-- The `calculateStreaks` computation of the `useAdvancedScoring` hook on
the attendance records of the active cycle: group records by player in
insertion order, sort each date list, scan it for the longest run of
exactly-7-day gaps, award `floor(maxConsecutive / 2)` bonus points, and
keep only players with a positive bonus. -/
def calculateStreaks (names : PlayerId → String) (recs : List CheckInRecord) :
    List StreakInfo :=
  (firstKeys (recs.map (fun r => r.player_id))).filterMap (fun p =>
    let sortedDates := List.insertionSort (· ≤ ·) (dates_of recs p)
    let maxC := maxConsecutive sortedDates
    let bonusPoints := maxC / 2
    if 0 < bonusPoints then some ⟨p, names p, maxC, bonusPoints⟩ else none)

/-- Per-player attendance counts accumulated by the grouping loop of
`calculateAttendanceChampion`, in insertion order. -/
def counts_of (recs : List CheckInRecord) : List (PlayerId × Nat) :=
  (firstKeys (recs.map (fun r => r.player_id))).map
    (fun p => (p, (recs.filter (fun r => r.player_id == p)).length))

/-- Champion selection loop of `calculateAttendanceChampion`: strict
argmax over the counts with `maxCount` starting at 0 and a fixed bonus of
10 points. -/
def championLoop (names : PlayerId → String) :
    Option ChampionInfo → Nat → List (PlayerId × Nat) → Option ChampionInfo
  | best, _, [] => best
  | best, maxCount, (p, c) :: rest =>
    if maxCount < c then championLoop names (some ⟨p, names p, c, 10⟩) c rest
    else championLoop names best maxCount rest

/-- The `calculateAttendanceChampion` computation of the
`useAdvancedScoring` hook on the attendance records of the active
cycle. -/
def calculateAttendanceChampion (names : PlayerId → String)
    (recs : List CheckInRecord) : Option ChampionInfo :=
  championLoop names none 0 (counts_of recs)

/-- Specification of the run structure, following the claim wording: a
run of check-in dates extends exactly when two consecutive dates are 7
days apart, and any other gap starts a new run.  `splitRuns1 d l` returns
the run starting at `d` and the list of later runs. -/
def splitRuns1 : Int → List Int → List Int × List (List Int)
  | d, [] => ([d], [])
  | d, e :: rest =>
    if e - d = 7 then (d :: (splitRuns1 e rest).1, (splitRuns1 e rest).2)
    else ([d], (splitRuns1 e rest).1 :: (splitRuns1 e rest).2)

/-- Decomposition of a date list into maximal runs of 7-day gaps. -/
def splitRuns : List Int → List (List Int)
  | [] => []
  | d :: rest => (splitRuns1 d rest).1 :: (splitRuns1 d rest).2

/-- Specification-side maximal run length: the greatest length of a
maximal run of 7-day gaps (1 for an empty list, matching the scan
initialisation). -/
def specMaxRun (l : List Int) : Nat :=
  ((splitRuns l).map List.length).foldr max 1

/-- Point constants of `types/index.ts` used by `PresentationForm`. -/
def POINTS_FIRST_SOLO_PRESENTATION : Int := 30

/-- Declared value for a second solo presentation in `types/index.ts`. -/
def POINTS_SECOND_SOLO_PRESENTATION : Int := 20

/-- Declared value for the first presenter of a pair. -/
def POINTS_FIRST_PAIR_PRESENTATION : Int := 20

/-- Declared value for the second presenter of a pair. -/
def POINTS_SECOND_PAIR_PRESENTATION : Int := 15

/-- The `handleSubmit` flow of `PresentationForm`: the first presenter is
inserted with order 1 and solo or pair points, and a second presenter, if
chosen, is inserted as an independent record with order 2 and second-pair
points. -/
def submitPresentation (cyc : Nat) (firstPresenter : PlayerId)
    (secondPresenter : Option PlayerId) : List Presentation :=
  let isSolo := secondPresenter.isNone
  let firstPresenterPoints :=
    if isSolo then POINTS_FIRST_SOLO_PRESENTATION else POINTS_FIRST_PAIR_PRESENTATION
  let firstRow : Presentation :=
    { player_id := firstPresenter
      second_presenter_id := secondPresenter
      cycle_id := cyc
      is_solo := isSolo
      presentation_order := 1
      points := firstPresenterPoints }
  match secondPresenter with
  | none => [firstRow]
  | some s =>
    [firstRow,
     { player_id := s
       second_presenter_id := some firstPresenter
       cycle_id := cyc
       is_solo := false
       presentation_order := 2
       points := POINTS_SECOND_PAIR_PRESENTATION }]

/-- The `handleSubmit` flow of the user `AddBlogModal`: reject a URL the
player already submitted, otherwise detect whether this is the first blog
of the player and insert with 30 points for a first blog and 20
otherwise. -/
def submitBlog (blogs : List Blog) (userId : PlayerId) (cyc : Nat) (url : String) :
    List Blog :=
  if blogs.any (fun b => b.player_id == userId && b.url == url) then blogs
  else
    let isFirst : Bool := (blogs.filter (fun b => b.player_id == userId)).length == 0
    blogs ++ [{ player_id := userId
                cycle_id := cyc
                url := url
                is_first := isFirst
                points := if isFirst then 30 else 20 }]

/-- Database with every table empty and cycle 1 active, used to build
concrete instances. -/
def emptyDb : Database :=
  { active_cycle_id := 1
    players := []
    attendance := []
    participations := []
    courses := []
    blogs := []
    books := []
    presentations := []
    ideas := []
    top_performer_awards := []
    penalties := [] }

/-- Database with one player holding a single 5-point top performer
award. -/
def dbTopAward : Database :=
  { emptyDb with
    players := [⟨0, "A", false⟩]
    top_performer_awards := [⟨0, 1, 5⟩] }

/-- Expected fetched entry for `dbTopAward`. -/
def demoTopEntry : LeaderboardEntry :=
  { player_id := 0
    player_name := "A"
    attendance_points := 0
    activity_points := 0
    course_points := 0
    blog_points := 0
    book_points := 0
    presentation_points := 0
    idea_points := 0
    top_performer_points := 5
    penalty_points := 0
    total_points := 5
    rank := 1
    is_last_place := false }

/-- Database whose only attendance record belongs to cycle 2 while cycle
1 is active. -/
def dbOtherCycle : Database :=
  { emptyDb with
    players := [⟨0, "A", false⟩]
    attendance := [⟨0, 2, 0, false, 1⟩] }

/-- Database with one verified 20-page book record. -/
def dbBook : Database :=
  { emptyDb with
    players := [⟨0, "A", false⟩]
    books := [⟨0, 1, 20, true⟩] }

/-- Database with two players where player 0 leads on attendance. -/
def dbTwoPlayers : Database :=
  { emptyDb with
    players := [⟨0, "A", false⟩, ⟨1, "B", false⟩]
    attendance := [⟨0, 1, 0, false, 1⟩] }

/-- Name lookup used by the concrete scoring-hook instances. -/
def demoNames : PlayerId → String :=
  fun p => if p = 0 then "A" else if p = 1 then "B" else "C"

/-- Three check-ins of one player on consecutive Wednesdays (7 days
apart). -/
def demoStreakRecs : List CheckInRecord :=
  [⟨0, 0⟩, ⟨0, 7⟩, ⟨0, 14⟩]

/-- Interleaved check-ins of two players. -/
def demoPermA : List CheckInRecord :=
  [⟨0, 0⟩, ⟨1, 7⟩, ⟨0, 7⟩]

/-- The same multiset of check-ins as `demoPermA`, in another order. -/
def demoPermB : List CheckInRecord :=
  [⟨0, 7⟩, ⟨1, 7⟩, ⟨0, 0⟩]

/-- Check-ins giving attendance counts 5, 8 and 3 to players 0, 1
and 2. -/
def demoChampionRecs : List CheckInRecord :=
  [⟨0, 0⟩, ⟨0, 7⟩, ⟨0, 14⟩, ⟨0, 21⟩, ⟨0, 28⟩,
   ⟨1, 0⟩, ⟨1, 7⟩, ⟨1, 14⟩, ⟨1, 21⟩, ⟨1, 28⟩, ⟨1, 35⟩, ⟨1, 42⟩, ⟨1, 49⟩,
   ⟨2, 0⟩, ⟨2, 7⟩, ⟨2, 14⟩]

/-- Expected champion for `demoChampionRecs`. -/
def demoChampion : ChampionInfo :=
  { playerId := 1
    playerName := "B"
    attendanceCount := 8
    bonusPoints := 10 }

/-- Blog table holding one earlier blog of player 1. -/
def demoBlogs : List Blog :=
  [⟨1, 1, "u1", true, 30⟩]

/-! ### General lemmas about the embedded operations -/

theorem filter_map_same {α β : Type} (g : α → α) (q : α → Bool) (v : α → β)
    (hq : ∀ a, q (g a) = q a) (hv : ∀ a, v (g a) = v a) (l : List α) :
    ((l.map g).filter q).map v = (l.filter q).map v := by
  induction l with
  | nil => rfl
  | cons a t ih =>
    simp only [List.map_cons, List.filter_cons, hq]
    cases hqa : q a
    · simpa [hqa] using ih
    · simp [hqa, hv, ih]

/-! ### Claim C2: book points ignore the catalog rate -/

/-- Claim C2 (code bug): the claim states that a book record contributes
`floor(pagesRead / 10) * pointsPer10Pages` with the rate taken from the
catalog, and the `AddBookModal` preview indeed shows that value, but the
generated `points` column of the `books` table is `FLOOR(pages_read / 10)`
without the catalog factor, and the leaderboard sums the generated column:
for a 20-page record of a 2-points-per-10-pages catalog book the claim
yields 4 while the stored and aggregated value is 2. -/
theorem C2_book_points_bug :
    books_generated_points 20 = 2 ∧
    modalCalculatedPoints 20 2 = 4 ∧
    books_generated_points 20 ≠ modalCalculatedPoints 20 2 ∧
    (∀ e ∈ fetchLeaderboard dbBook, e.book_points = 2) ∧
    (∀ pages_read, books_generated_points pages_read = modalCalculatedPoints pages_read 1) := by
  refine ⟨rfl, rfl, by decide, by decide, fun pages_read => ?_⟩
  simp [books_generated_points, modalCalculatedPoints]

/-! ### Claim C6: course points -/

/-- Claim C6 (confirmed): the generated course points equal
`floor(hours * completionPercent / 100 * 4)` when the completion is at
least 60 percent, and are 0 below 60 percent regardless of hours.  Hours
are embedded in hundredths, so the rational value of `hours` is
`total_hours_centi / 100`. -/
theorem C6_course_points (hc c : Nat) :
    (c < 60 → courses_generated_points hc c = 0) ∧
    (60 ≤ c → (courses_generated_points hc c : ℤ) =
      ⌊((hc : ℚ) / 100) * (c : ℚ) / 100 * 4⌋) := by
  constructor
  · intro h
    simp only [courses_generated_points, if_neg (by omega : ¬ 60 ≤ c)]
  · intro h
    simp only [courses_generated_points, if_pos h]
    have hcast : ((hc : ℚ) / 100) * (c : ℚ) / 100 * 4 =
        (((hc * c * 4 : ℕ) : ℤ) : ℚ) / ((10000 : ℕ) : ℚ) := by
      push_cast
      ring
    rw [hcast, Rat.floor_intCast_div_natCast]
    omega

/-- Witness for claim C6 at 1.5 hours: 59 percent completion yields 0 and
80 percent completion yields the rational floor. -/
theorem C6_course_points_witness :
    ((59 : Nat) < 60 ∧ courses_generated_points 150 59 = 0) ∧
    ((60 : Nat) ≤ 80 ∧ (courses_generated_points 150 80 : ℤ) =
      ⌊((150 : ℚ) / 100) * ((80 : Nat) : ℚ) / 100 * 4⌋) :=
  ⟨⟨by decide, (C6_course_points 150 59).1 (by decide)⟩,
   ⟨by decide, (C6_course_points 150 80).2 (by decide)⟩⟩

/-! ### Claim C8: presentation points -/

/-- Claim C8 (confirmed): logging a solo presentation inserts one record
with order 1 and 30 points; logging a pair inserts two independent
records, the first presenter with order 1 and 20 points and the second
presenter with order 2 and 15 points.  No logged solo record ever has
order 2; the declared constant for that case in `types/index.ts` is 20
points. -/
theorem C8_presentation_points (cyc : Nat) (firstPresenter s : PlayerId) :
    submitPresentation cyc firstPresenter none =
      [{ player_id := firstPresenter, second_presenter_id := none, cycle_id := cyc,
         is_solo := true, presentation_order := 1, points := 30 }] ∧
    submitPresentation cyc firstPresenter (some s) =
      [{ player_id := firstPresenter, second_presenter_id := some s, cycle_id := cyc,
         is_solo := false, presentation_order := 1, points := 20 },
       { player_id := s, second_presenter_id := some firstPresenter, cycle_id := cyc,
         is_solo := false, presentation_order := 2, points := 15 }] ∧
    POINTS_FIRST_SOLO_PRESENTATION = 30 ∧
    POINTS_FIRST_PAIR_PRESENTATION = 20 ∧
    POINTS_SECOND_PAIR_PRESENTATION = 15 ∧
    POINTS_SECOND_SOLO_PRESENTATION = 20 :=
  ⟨rfl, rfl, rfl, rfl, rfl, rfl⟩

/-! ### Claim C7: blog points -/

/-- Claim C7 (confirmed): an accepted blog submission is stored with 30
points exactly when the player has no previously recorded blog, and with
20 points otherwise; the assigned points depend only on the prior blog
rows of the submitting player, hence are unaffected by the rows of other
players. -/
theorem C7_blog_points (blogs : List Blog) (userId : PlayerId) (cyc : Nat) (url : String)
    (hnew : ∀ b ∈ blogs, b.player_id = userId → b.url ≠ url) :
    submitBlog blogs userId cyc url =
      blogs ++ [{ player_id := userId, cycle_id := cyc, url := url,
                  is_first := (blogs.filter (fun b => b.player_id == userId)).length == 0,
                  points := if (blogs.filter (fun b => b.player_id == userId)).length == 0
                            then 30 else 20 }] ∧
    (∀ blogs2 : List Blog,
      blogs2.filter (fun b => b.player_id == userId) =
          blogs.filter (fun b => b.player_id == userId) →
      (∀ b ∈ blogs2, b.player_id = userId → b.url ≠ url) →
      submitBlog blogs2 userId cyc url =
        blogs2 ++ [{ player_id := userId, cycle_id := cyc, url := url,
                     is_first := (blogs.filter (fun b => b.player_id == userId)).length == 0,
                     points := if (blogs.filter (fun b => b.player_id == userId)).length == 0
                               then 30 else 20 }]) := by
  have key : ∀ bs : List Blog, (∀ b ∈ bs, b.player_id = userId → b.url ≠ url) →
      submitBlog bs userId cyc url =
        bs ++ [{ player_id := userId, cycle_id := cyc, url := url,
                 is_first := (bs.filter (fun b => b.player_id == userId)).length == 0,
                 points := if (bs.filter (fun b => b.player_id == userId)).length == 0
                           then 30 else 20 }] := by
    intro bs hbs
    have hdup : bs.any (fun b => b.player_id == userId && b.url == url) = false := by
      simp only [List.any_eq_false, Bool.and_eq_true, beq_iff_eq]
      intro b hb hcontra
      exact hbs b hb hcontra.1 hcontra.2
    simp only [submitBlog, hdup, Bool.false_eq_true, if_false]
  refine ⟨key blogs hnew, fun blogs2 hfilter hnew2 => ?_⟩
  rw [key blogs2 hnew2, hfilter]

/-- Witness for claim C7: with one earlier blog of player 1 on record, a
new submission by player 0 is accepted as a first blog worth 30 points. -/
theorem C7_blog_points_witness :
    (∀ b ∈ demoBlogs, b.player_id = 0 → b.url ≠ "u2") ∧
    submitBlog demoBlogs 0 1 "u2" =
      demoBlogs ++ [{ player_id := 0, cycle_id := 1, url := "u2",
                      is_first := true, points := 30 }] :=
  ⟨by decide,
   ((C7_blog_points demoBlogs 0 1 "u2" (by decide)).1).trans (by decide)⟩

/-! ### Structure of the fetched leaderboard -/

theorem mem_markEntries {e : LeaderboardEntry} :
    ∀ (l : List ViewEntry) (n i : Nat), e ∈ markEntries n i l →
      ∃ v ∈ l, ∃ r : Nat, ∃ b : Bool, e = toEntry v r b := by
  intro l
  induction l with
  | nil => intro n i h; simp [markEntries] at h
  | cons v rest ih =>
    intro n i h
    rcases List.mem_cons.mp h with h1 | h2
    · exact ⟨v, List.mem_cons_self v rest, i + 1, decide (i = n - 1 ∧ 1 < n), h1⟩
    · obtain ⟨w, hw, r, b, hb⟩ := ih n (i + 1) h2
      exact ⟨w, List.mem_cons_of_mem v hw, r, b, hb⟩

theorem mem_leaderboard {db : Database} {v : ViewEntry} (h : v ∈ leaderboard db) :
    ∃ p ∈ db.players, v = leaderboardRow db p := by
  have hmem : v ∈ db.players.map (leaderboardRow db) :=
    (List.perm_insertionSort viewGE _).mem_iff.mp h
  obtain ⟨p, hp, hv⟩ := List.mem_map.mp hmem
  exact ⟨p, hp, hv.symm⟩

/-! ### Claim C1: composition of the total -/

/-- Claim C1 is refuted as stated: a database holding only a 5-point top
performer award yields an entry whose total is 5 while the sum of the
eight claimed category subtotals is 0. -/
theorem C1_counterexample :
    ¬ (∀ e ∈ fetchLeaderboard dbTopAward,
        e.total_points = e.attendance_points + e.activity_points + e.course_points +
          e.blog_points + e.book_points + e.presentation_points + e.idea_points +
          e.penalty_points) := by
  decide

/-- Claim C1 (corrected): every fetched leaderboard entry has
`total_points` equal to the sum of nine subtotals: the eight claimed
categories plus the top performer award subtotal, and nothing else. -/
theorem C1_total_is_sum_of_subtotals (db : Database) (e : LeaderboardEntry)
    (h : e ∈ fetchLeaderboard db) :
    e.total_points = e.attendance_points + e.activity_points + e.course_points +
      e.blog_points + e.book_points + e.presentation_points + e.idea_points +
      e.top_performer_points + e.penalty_points := by
  obtain ⟨v, hv, r, b, rfl⟩ := mem_markEntries _ _ _ h
  obtain ⟨p, _, rfl⟩ := mem_leaderboard hv
  rfl

/-- Witness for claim C1 on the concrete one-award database. -/
theorem C1_total_is_sum_of_subtotals_witness :
    demoTopEntry ∈ fetchLeaderboard dbTopAward ∧
    demoTopEntry.total_points = demoTopEntry.attendance_points +
      demoTopEntry.activity_points + demoTopEntry.course_points +
      demoTopEntry.blog_points + demoTopEntry.book_points +
      demoTopEntry.presentation_points + demoTopEntry.idea_points +
      demoTopEntry.top_performer_points + demoTopEntry.penalty_points :=
  ⟨by decide, C1_total_is_sum_of_subtotals dbTopAward demoTopEntry (by decide)⟩

/-! ### Claim C3: the view does not restrict to the active cycle -/

/-- Claim C3 is refuted as stated: with cycle 1 active, a lone attendance
record attached to cycle 2 still contributes to the attendance subtotal
and to the total. -/
theorem C3_counterexample :
    dbOtherCycle.active_cycle_id = 1 ∧
    (∀ a ∈ dbOtherCycle.attendance, a.cycle_id ≠ dbOtherCycle.active_cycle_id) ∧
    ¬ (∀ e ∈ fetchLeaderboard dbOtherCycle,
        e.attendance_points = 0 ∧ e.total_points = 0) := by
  decide

theorem attendance_points_remap (f : Nat → Nat) (db : Database) (p : Player) :
    attendance_points (remap_cycles f db) p = attendance_points db p :=
  congrArg List.sum
    (filter_map_same (fun a => { a with cycle_id := f a.cycle_id }) _ _
      (fun _ => rfl) (fun _ => rfl) db.attendance)

theorem course_points_remap (f : Nat → Nat) (db : Database) (p : Player) :
    course_points (remap_cycles f db) p = course_points db p :=
  congrArg List.sum
    (filter_map_same (fun c => { c with cycle_id := f c.cycle_id }) _ _
      (fun _ => rfl) (fun _ => rfl) db.courses)

theorem blog_points_remap (f : Nat → Nat) (db : Database) (p : Player) :
    blog_points (remap_cycles f db) p = blog_points db p :=
  congrArg List.sum
    (filter_map_same (fun b => { b with cycle_id := f b.cycle_id }) _ _
      (fun _ => rfl) (fun _ => rfl) db.blogs)

theorem book_points_remap (f : Nat → Nat) (db : Database) (p : Player) :
    book_points (remap_cycles f db) p = book_points db p :=
  congrArg List.sum
    (filter_map_same (fun bk => { bk with cycle_id := f bk.cycle_id }) _ _
      (fun _ => rfl) (fun _ => rfl) db.books)

theorem presentation_points_remap (f : Nat → Nat) (db : Database) (p : Player) :
    presentation_points (remap_cycles f db) p = presentation_points db p :=
  congrArg List.sum
    (filter_map_same (fun pr => { pr with cycle_id := f pr.cycle_id }) _ _
      (fun _ => rfl) (fun _ => rfl) db.presentations)

theorem idea_points_remap (f : Nat → Nat) (db : Database) (p : Player) :
    idea_points (remap_cycles f db) p = idea_points db p :=
  congrArg List.sum
    (filter_map_same (fun i => { i with cycle_id := f i.cycle_id }) _ _
      (fun _ => rfl) (fun _ => rfl) db.ideas)

theorem top_performer_points_remap (f : Nat → Nat) (db : Database) (p : Player) :
    top_performer_points (remap_cycles f db) p = top_performer_points db p :=
  congrArg List.sum
    (filter_map_same (fun t => { t with cycle_id := f t.cycle_id }) _ _
      (fun _ => rfl) (fun _ => rfl) db.top_performer_awards)

theorem penalty_points_remap (f : Nat → Nat) (db : Database) (p : Player) :
    penalty_points (remap_cycles f db) p = penalty_points db p :=
  congrArg List.sum
    (filter_map_same (fun pen => { pen with cycle_id := f pen.cycle_id }) _ _
      (fun _ => rfl) (fun _ => rfl) db.penalties)

theorem total_points_remap (f : Nat → Nat) (db : Database) (p : Player) :
    total_points (remap_cycles f db) p = total_points db p := by
  unfold total_points
  rw [attendance_points_remap, course_points_remap, blog_points_remap,
    book_points_remap, presentation_points_remap, idea_points_remap,
    top_performer_points_remap, penalty_points_remap]
  rfl

theorem view_rank_remap (f : Nat → Nat) (db : Database) (p : Player) :
    view_rank (remap_cycles f db) p = view_rank db p := by
  unfold view_rank
  have : (remap_cycles f db).players = db.players := rfl
  rw [this]
  congr 1
  apply congrArg List.length
  apply List.filter_congr
  intro q _
  rw [total_points_remap, total_points_remap]

theorem leaderboardRow_remap (f : Nat → Nat) (db : Database) (p : Player) :
    leaderboardRow (remap_cycles f db) p = leaderboardRow db p := by
  unfold leaderboardRow
  rw [attendance_points_remap, course_points_remap, blog_points_remap,
    book_points_remap, presentation_points_remap, idea_points_remap,
    top_performer_points_remap, penalty_points_remap, total_points_remap,
    view_rank_remap]
  rfl

/-- Claim C3 (corrected): the leaderboard aggregation reads no cycle
column at all, so the contribution of a record is independent of the
cycle it is attached to: renaming every cycle id in the database leaves
the fetched leaderboard unchanged.  Only the streak and champion
calculators restrict to the active cycle. -/
theorem C3_leaderboard_cycle_blind (f : Nat → Nat) (db : Database) :
    fetchLeaderboard (remap_cycles f db) = fetchLeaderboard db := by
  have hrows : (remap_cycles f db).players.map (leaderboardRow (remap_cycles f db)) =
      db.players.map (leaderboardRow db) := by
    have hp : (remap_cycles f db).players = db.players := rfl
    rw [hp]
    exact List.map_congr_left (fun p _ => leaderboardRow_remap f db p)
  unfold fetchLeaderboard leaderboard
  rw [hrows]

/-! ### Claim C9: the last-place flag -/

theorem markEntries_all_false :
    ∀ (l : List ViewEntry) (i n : Nat), ¬ 1 < n →
      ∀ e ∈ markEntries n i l, e.is_last_place = false := by
  intro l
  induction l with
  | nil => intro i n _ e he; simp [markEntries] at he
  | cons v rest ih =>
    intro i n hn e he
    rcases List.mem_cons.mp he with rfl | h2
    · simp [toEntry, hn]
    · exact ih (i + 1) n hn e h2

theorem markEntries_countP :
    ∀ (l : List ViewEntry) (i n : Nat), l ≠ [] → i + l.length = n →
      (markEntries n i l).countP (fun e => e.is_last_place) =
        if 1 < n then 1 else 0 := by
  intro l
  induction l with
  | nil => intro i n h _; cases h rfl
  | cons v rest ih =>
    intro i n _ hlen
    rcases eq_or_ne rest [] with rfl | hrest
    · have hi : i = n - 1 := by simp at hlen; omega
      have hn1 : 1 ≤ n := by simp at hlen; omega
      by_cases h1 : 1 < n
      · simp [markEntries, List.countP_cons, toEntry, hi, h1]
      · simp [markEntries, List.countP_cons, toEntry, hi, h1]
    · have hpos : 0 < rest.length := List.length_pos.mpr hrest
      have hlen2 : (i + 1) + rest.length = n := by simp at hlen; omega
      have hne : ¬ (i = n - 1 ∧ 1 < n) := by
        intro hcontra
        omega
      have htail := ih (i + 1) n hrest hlen2
      simp [markEntries, List.countP_cons, toEntry, hne, htail]

theorem markEntries_rank_of_last :
    ∀ (l : List ViewEntry) (i n : Nat), i + l.length = n →
      ∀ e ∈ markEntries n i l, e.is_last_place = true → e.rank = n := by
  intro l
  induction l with
  | nil => intro i n _ e he; simp [markEntries] at he
  | cons v rest ih =>
    intro i n hlen e he hlast
    rcases List.mem_cons.mp he with rfl | h2
    · have : i = n - 1 ∧ 1 < n := by
        have := hlast
        simpa [toEntry] using this
      simp only [toEntry]
      omega
    · exact ih (i + 1) n (by simp at hlen; omega) e h2 hlast

theorem length_markEntries :
    ∀ (l : List ViewEntry) (n i : Nat), (markEntries n i l).length = l.length := by
  intro l
  induction l with
  | nil => intro n i; rfl
  | cons v rest ih => intro n i; simp [markEntries, ih]

theorem length_leaderboard (db : Database) :
    (leaderboard db).length = db.players.length := by
  unfold leaderboard
  rw [List.length_insertionSort, List.length_map]

theorem length_fetchLeaderboard (db : Database) :
    (fetchLeaderboard db).length = db.players.length := by
  unfold fetchLeaderboard
  rw [length_markEntries, length_leaderboard]

/-- Claim C9 (confirmed): with at most one player no fetched entry is
flagged last place; with two or more players exactly one entry is
flagged, namely the single lowest-ranked one (its ordinal rank is the
number of entries). -/
theorem C9_is_last_place (db : Database) :
    (db.players.length ≤ 1 → ∀ e ∈ fetchLeaderboard db, e.is_last_place = false) ∧
    (2 ≤ db.players.length →
      (fetchLeaderboard db).countP (fun e => e.is_last_place) = 1 ∧
      ∀ e ∈ fetchLeaderboard db, e.is_last_place = true →
        e.rank = (fetchLeaderboard db).length) := by
  have hlen : (leaderboard db).length = db.players.length := length_leaderboard db
  constructor
  · intro h1
    exact markEntries_all_false (leaderboard db) 0 (leaderboard db).length (by omega)
  · intro h2
    have hne : leaderboard db ≠ [] := by
      intro hcontra
      rw [hcontra] at hlen
      simp at hlen
      omega
    constructor
    · rw [fetchLeaderboard, markEntries_countP (leaderboard db) 0 _ hne (by omega)]
      rw [if_pos (by omega)]
    · intro e he hlast
      rw [length_fetchLeaderboard]
      have := markEntries_rank_of_last (leaderboard db) 0 (leaderboard db).length
        (by omega) e he hlast
      omega

/-- Witness for claim C9 on the two-player database: exactly one flagged
entry, and every flagged entry has the bottom rank. -/
theorem C9_is_last_place_witness :
    2 ≤ dbTwoPlayers.players.length ∧
    ((fetchLeaderboard dbTwoPlayers).countP (fun e => e.is_last_place) = 1 ∧
      ∀ e ∈ fetchLeaderboard dbTwoPlayers, e.is_last_place = true →
        e.rank = (fetchLeaderboard dbTwoPlayers).length) :=
  ⟨by decide, (C9_is_last_place dbTwoPlayers).2 (by decide)⟩

/-! ### The scan of the streak calculator computes the maximal run -/

theorem splitRuns1_fst (d : Int) (l : List Int) :
    ∃ t, (splitRuns1 d l).1 = d :: t := by
  cases l with
  | nil => exact ⟨[], rfl⟩
  | cons e rest =>
    simp only [splitRuns1]
    by_cases h : e - d = 7
    · exact ⟨(splitRuns1 e rest).1, by rw [if_pos h]⟩
    · exact ⟨[], by rw [if_neg h]⟩

theorem streakLoop_eq :
    ∀ (rest : List Int) (prev : Int) (cur maxC : Nat), 1 ≤ cur → cur ≤ maxC →
      streakLoop prev cur maxC rest =
        max maxC (max (cur - 1 + (splitRuns1 prev rest).1.length)
          (((splitRuns1 prev rest).2.map List.length).foldr max 1)) := by
  intro rest
  induction rest with
  | nil =>
    intro prev cur maxC h1 h2
    simp only [streakLoop, splitRuns1, List.length_cons, List.length_nil,
      List.map_nil, List.foldr_nil]
    omega
  | cons e ds ih =>
    intro prev cur maxC h1 h2
    by_cases h7 : e - prev = 7
    · rw [streakLoop, if_pos h7,
        ih e (cur + 1) (max maxC (cur + 1)) (by omega) (le_max_right _ _)]
      simp only [splitRuns1, if_pos h7]
      obtain ⟨t, ht⟩ := splitRuns1_fst e ds
      simp only [ht, List.length_cons]
      omega
    · rw [streakLoop, if_neg h7, ih e 1 maxC le_rfl (le_trans h1 h2)]
      simp only [splitRuns1, if_neg h7]
      obtain ⟨t, ht⟩ := splitRuns1_fst e ds
      simp only [ht, List.length_cons, List.length_nil, List.map_cons,
        List.foldr_cons]
      omega

theorem maxConsecutive_eq_specMaxRun (l : List Int) :
    maxConsecutive l = specMaxRun l := by
  cases l with
  | nil => rfl
  | cons d rest =>
    rw [maxConsecutive, streakLoop_eq rest d 1 1 le_rfl le_rfl]
    simp only [specMaxRun, splitRuns, List.map_cons, List.foldr_cons]
    obtain ⟨t, ht⟩ := splitRuns1_fst d rest
    simp only [ht, List.length_cons]
    omega

/-! ### Insertion-order grouping keys -/

theorem mem_firstKeysAux {a : PlayerId} :
    ∀ (l : List PlayerId) (seen : List PlayerId),
      a ∈ firstKeysAux seen l ↔ a ∉ seen ∧ a ∈ l := by
  intro l
  induction l with
  | nil => intro seen; simp [firstKeysAux]
  | cons b rest ih =>
    intro seen
    by_cases hb : b ∈ seen
    · rw [firstKeysAux, if_pos hb, ih]
      constructor
      · rintro ⟨h1, h2⟩
        exact ⟨h1, List.mem_cons_of_mem b h2⟩
      · rintro ⟨h1, h2⟩
        rcases List.mem_cons.mp h2 with rfl | h3
        · exact absurd hb (by exact fun hc => h1 hc)
        · exact ⟨h1, h3⟩
    · rw [firstKeysAux, if_neg hb]
      constructor
      · intro h
        rcases List.mem_cons.mp h with rfl | h2
        · exact ⟨hb, List.mem_cons_self a rest⟩
        · rw [ih] at h2
          refine ⟨fun hc => h2.1 (List.mem_cons_of_mem b hc), List.mem_cons_of_mem b h2.2⟩
      · rintro ⟨h1, h2⟩
        rcases List.mem_cons.mp h2 with rfl | h3
        · exact List.mem_cons_self a _
        · by_cases hab : a = b
          · exact hab ▸ List.mem_cons_self a _
          · exact List.mem_cons_of_mem b
              ((ih (b :: seen)).mpr ⟨by simp [hab, h1], h3⟩)

theorem mem_firstKeys {a : PlayerId} {l : List PlayerId} :
    a ∈ firstKeys l ↔ a ∈ l := by
  rw [firstKeys, mem_firstKeysAux]
  simp

theorem nodup_firstKeysAux :
    ∀ (l : List PlayerId) (seen : List PlayerId), (firstKeysAux seen l).Nodup := by
  intro l
  induction l with
  | nil => intro seen; simp [firstKeysAux]
  | cons b rest ih =>
    intro seen
    by_cases hb : b ∈ seen
    · rw [firstKeysAux, if_pos hb]
      exact ih seen
    · rw [firstKeysAux, if_neg hb]
      refine List.Nodup.cons ?_ (ih (b :: seen))
      intro hmem
      exact ((mem_firstKeysAux rest (b :: seen)).mp hmem).1 (List.mem_cons_self b seen)

theorem nodup_firstKeys (l : List PlayerId) : (firstKeys l).Nodup :=
  nodup_firstKeysAux l []

theorem firstKeys_perm {l₁ l₂ : List PlayerId} (h : l₁.Perm l₂) :
    (firstKeys l₁).Perm (firstKeys l₂) := by
  rw [List.perm_ext_iff_of_nodup (nodup_firstKeys l₁) (nodup_firstKeys l₂)]
  intro a
  rw [mem_firstKeys, mem_firstKeys]
  exact h.mem_iff

/-! ### Claim C4: the streak calculator -/

/-- Claim C4 (confirmed): for every streak entry produced by
`calculateStreaks`, the reported consecutive weeks equal the maximal run
of exactly-7-day gaps in the sorted date list of that player (runs extend
precisely on a 7-day gap and restart on any other gap, as captured by
`specMaxRun`), the bonus is the floor of half that run, and the bonus is
positive; conversely every player with a record and a run of at least 2
appears.  Players with bonus 0 are exactly the excluded ones. -/
theorem C4_streaks (names : PlayerId → String) (recs : List CheckInRecord)
    (p : PlayerId) :
    (∀ info ∈ calculateStreaks names recs,
      info.consecutiveWeeks =
        specMaxRun (List.insertionSort (· ≤ ·) (dates_of recs info.playerId)) ∧
      info.bonusPoints =
        specMaxRun (List.insertionSort (· ≤ ·) (dates_of recs info.playerId)) / 2 ∧
      0 < info.bonusPoints) ∧
    (p ∈ recs.map (fun r => r.player_id) →
      2 ≤ specMaxRun (List.insertionSort (· ≤ ·) (dates_of recs p)) →
      ∃ info ∈ calculateStreaks names recs, info.playerId = p ∧
        info.bonusPoints =
          specMaxRun (List.insertionSort (· ≤ ·) (dates_of recs p)) / 2) := by
  constructor
  · intro info hinfo
    obtain ⟨q, _, hq⟩ := List.mem_filterMap.mp hinfo
    by_cases hpos :
        0 < maxConsecutive (List.insertionSort (· ≤ ·) (dates_of recs q)) / 2
    · rw [if_pos hpos] at hq
      obtain rfl := Option.some.inj hq
      refine ⟨?_, ?_, hpos⟩
      · exact maxConsecutive_eq_specMaxRun _
      · rw [maxConsecutive_eq_specMaxRun]
    · rw [if_neg hpos] at hq
      cases hq
  · intro hp h2
    have hkey : p ∈ firstKeys (recs.map (fun r => r.player_id)) :=
      mem_firstKeys.mpr hp
    have hrun : 2 ≤ maxConsecutive (List.insertionSort (· ≤ ·) (dates_of recs p)) := by
      rw [maxConsecutive_eq_specMaxRun]
      exact h2
    have hpos : 0 < maxConsecutive (List.insertionSort (· ≤ ·) (dates_of recs p)) / 2 := by
      omega
    refine ⟨⟨p, names p,
      maxConsecutive (List.insertionSort (· ≤ ·) (dates_of recs p)),
      maxConsecutive (List.insertionSort (· ≤ ·) (dates_of recs p)) / 2⟩,
      List.mem_filterMap.mpr ⟨p, hkey, ?_⟩, rfl, ?_⟩
    · rw [if_pos hpos]
    · rw [maxConsecutive_eq_specMaxRun]

/-- Witness for claim C4: three check-ins exactly 7 days apart give a
maximal run of 3 and a bonus of 1, so the player appears. -/
theorem C4_streaks_witness :
    ((0 : PlayerId) ∈ demoStreakRecs.map (fun r => r.player_id) ∧
      2 ≤ specMaxRun (List.insertionSort (· ≤ ·) (dates_of demoStreakRecs 0))) ∧
    ∃ info ∈ calculateStreaks demoNames demoStreakRecs, info.playerId = 0 ∧
      info.bonusPoints =
        specMaxRun (List.insertionSort (· ≤ ·) (dates_of demoStreakRecs 0)) / 2 :=
  ⟨⟨by decide, by decide⟩,
   (C4_streaks demoNames demoStreakRecs 0).2 (by decide) (by decide)⟩

/-! ### Claim C10: permutation invariance of the streak calculator -/

theorem sorted_dates_of_perm {recs₁ recs₂ : List CheckInRecord}
    (h : recs₁.Perm recs₂) (p : PlayerId) :
    List.insertionSort (· ≤ ·) (dates_of recs₁ p) =
      List.insertionSort (· ≤ ·) (dates_of recs₂ p) := by
  have hperm : (dates_of recs₁ p).Perm (dates_of recs₂ p) := by
    unfold dates_of
    exact (h.filter (fun r => r.player_id == p)).map (fun r => r.check_in_date)
  exact List.eq_of_perm_of_sorted
    ((List.perm_insertionSort _ _).trans (hperm.trans (List.perm_insertionSort _ _).symm))
    (List.sorted_insertionSort _ _) (List.sorted_insertionSort _ _)

/-- Claim C10 (confirmed): the streak calculator is invariant under
permutation of its input records: it groups the records by player and
sorts each date list, so reordered inputs yield the same streak results
up to order. -/
theorem C10_streaks_perm_invariant (names : PlayerId → String)
    (recs₁ recs₂ : List CheckInRecord) (h : recs₁.Perm recs₂) :
    (calculateStreaks names recs₁).Perm (calculateStreaks names recs₂) := by
  unfold calculateStreaks
  have hkeys : (firstKeys (recs₁.map (fun r => r.player_id))).Perm
      (firstKeys (recs₂.map (fun r => r.player_id))) :=
    firstKeys_perm (h.map (fun r => r.player_id))
  have hfun :
      (fun p =>
        let sortedDates := List.insertionSort (· ≤ ·) (dates_of recs₁ p)
        let maxC := maxConsecutive sortedDates
        let bonusPoints := maxC / 2
        if 0 < bonusPoints then some (⟨p, names p, maxC, bonusPoints⟩ : StreakInfo)
        else none) =
      (fun p =>
        let sortedDates := List.insertionSort (· ≤ ·) (dates_of recs₂ p)
        let maxC := maxConsecutive sortedDates
        let bonusPoints := maxC / 2
        if 0 < bonusPoints then some (⟨p, names p, maxC, bonusPoints⟩ : StreakInfo)
        else none) :=
    funext (fun q => by simp only [sorted_dates_of_perm h q])
  rw [← hfun]
  exact hkeys.filterMap _

/-- Witness for claim C10 on a concrete reordering of three check-ins. -/
theorem C10_streaks_perm_invariant_witness :
    demoPermA.Perm demoPermB ∧
    (calculateStreaks demoNames demoPermA).Perm (calculateStreaks demoNames demoPermB) :=
  ⟨by decide, C10_streaks_perm_invariant demoNames demoPermA demoPermB (by decide)⟩

/-! ### Claim C5: the attendance champion -/

theorem championLoop_none (names : PlayerId → String) :
    ∀ (l : List (PlayerId × Nat)) (best : Option ChampionInfo) (maxC : Nat),
      championLoop names best maxC l = none ↔
        (best = none ∧ ∀ q ∈ l, q.2 ≤ maxC) := by
  intro l
  induction l with
  | nil => intro best maxC; simp [championLoop]
  | cons pc rest ih =>
    intro best maxC
    obtain ⟨p, c⟩ := pc
    by_cases h : maxC < c
    · rw [championLoop, if_pos h, ih]
      constructor
      · rintro ⟨hsome, -⟩
        exact absurd hsome (Option.some_ne_none _)
      · rintro ⟨-, hall⟩
        exact absurd (hall (p, c) (List.mem_cons_self _ _)) (by omega)
    · rw [championLoop, if_neg h, ih]
      constructor
      · rintro ⟨h1, h2⟩
        refine ⟨h1, fun q hq => ?_⟩
        rcases List.mem_cons.mp hq with rfl | hq2
        · omega
        · exact h2 q hq2
      · rintro ⟨h1, h2⟩
        exact ⟨h1, fun q hq => h2 q (List.mem_cons_of_mem _ hq)⟩

theorem championLoop_spec (names : PlayerId → String) :
    ∀ (l proc : List (PlayerId × Nat)) (best : Option ChampionInfo) (maxC : Nat),
      (∀ c0, best = some c0 → c0.bonusPoints = 10 ∧
        (c0.playerId, c0.attendanceCount) ∈ proc ∧ c0.attendanceCount = maxC) →
      (∀ q ∈ proc, q.2 ≤ maxC) →
      ∀ c, championLoop names best maxC l = some c →
        c.bonusPoints = 10 ∧ (c.playerId, c.attendanceCount) ∈ proc ++ l ∧
        ∀ q ∈ proc ++ l, q.2 ≤ c.attendanceCount := by
  intro l
  induction l with
  | nil =>
    intro proc best maxC hinv hbound c hc
    simp only [championLoop] at hc
    obtain ⟨h10, hmem, hcnt⟩ := hinv c hc
    refine ⟨h10, by simpa using hmem, fun q hq => ?_⟩
    rw [hcnt]
    exact hbound q (by simpa using hq)
  | cons pc rest ih =>
    intro proc best maxC hinv hbound c hc
    obtain ⟨p, cc⟩ := pc
    by_cases h : maxC < cc
    · rw [championLoop, if_pos h] at hc
      have hres := ih (proc ++ [(p, cc)]) (some ⟨p, names p, cc, 10⟩) cc
        (fun c0 hc0 => by
          obtain rfl := Option.some.inj hc0
          exact ⟨rfl, by simp, rfl⟩)
        (fun q hq => by
          rcases List.mem_append.mp hq with hq1 | hq2
          · exact le_of_lt (lt_of_le_of_lt (hbound q hq1) h)
          · obtain rfl := List.mem_singleton.mp hq2
            exact Nat.le_refl cc)
        c hc
      rwa [List.append_assoc, List.singleton_append] at hres
    · rw [championLoop, if_neg h] at hc
      have hres := ih (proc ++ [(p, cc)]) best maxC
        (fun c0 hc0 => by
          obtain ⟨h10, hmem, hcnt⟩ := hinv c0 hc0
          exact ⟨h10, List.mem_append.mpr (Or.inl hmem), hcnt⟩)
        (fun q hq => by
          rcases List.mem_append.mp hq with hq1 | hq2
          · exact hbound q hq1
          · obtain rfl := List.mem_singleton.mp hq2
            exact Nat.le_of_not_lt h)
        c hc
      rwa [List.append_assoc, List.singleton_append] at hres

theorem counts_of_pos (recs : List CheckInRecord) :
    ∀ q ∈ counts_of recs, 1 ≤ q.2 := by
  intro q hq
  unfold counts_of at hq
  obtain ⟨p, hp, rfl⟩ := List.mem_map.mp hq
  have hpmem : p ∈ recs.map (fun r => r.player_id) := mem_firstKeys.mp hp
  obtain ⟨r, hr, hrp⟩ := List.mem_map.mp hpmem
  have hfil : r ∈ recs.filter (fun r => r.player_id == p) :=
    List.mem_filter.mpr ⟨hr, by simp [hrp]⟩
  have hlen := List.length_pos.mpr (List.ne_nil_of_mem hfil)
  simpa using hlen

theorem counts_of_eq_nil_iff (recs : List CheckInRecord) :
    counts_of recs = [] ↔ recs = [] := by
  cases recs with
  | nil => simp [counts_of, firstKeys, firstKeysAux]
  | cons r rest => simp [counts_of, firstKeys, firstKeysAux]

/-- Claim C5 (confirmed): the champion calculator returns `none` exactly
when there are no attendance records, and any returned champion has a
fixed 10-point bonus, appears among the per-player counts, and has a
count at least as large as every count. -/
theorem C5_champion (names : PlayerId → String) (recs : List CheckInRecord) :
    (calculateAttendanceChampion names recs = none ↔ recs = []) ∧
    (∀ c, calculateAttendanceChampion names recs = some c →
      c.bonusPoints = 10 ∧ (c.playerId, c.attendanceCount) ∈ counts_of recs ∧
      ∀ q ∈ counts_of recs, q.2 ≤ c.attendanceCount) := by
  constructor
  · rw [calculateAttendanceChampion, championLoop_none]
    constructor
    · rintro ⟨-, hall⟩
      by_contra hne
      have hcne : counts_of recs ≠ [] :=
        fun hc => hne ((counts_of_eq_nil_iff recs).mp hc)
      obtain ⟨q, hq⟩ := List.exists_mem_of_ne_nil (counts_of recs) hcne
      have h1 := counts_of_pos recs q hq
      have h2 := hall q hq
      omega
    · intro h
      subst h
      exact ⟨rfl, by simp [counts_of, firstKeys, firstKeysAux]⟩
  · intro c hc
    have hres := championLoop_spec names (counts_of recs) [] none 0
      (fun c0 hc0 => Option.noConfusion hc0)
      (fun q hq => by simp at hq)
      c hc
    simpa using hres

/-- Witness for claim C5: counts 5, 8 and 3 yield player 1 as champion
with count 8 and bonus 10. -/
theorem C5_champion_witness :
    calculateAttendanceChampion demoNames demoChampionRecs = some demoChampion ∧
    (demoChampion.bonusPoints = 10 ∧
      (demoChampion.playerId, demoChampion.attendanceCount) ∈ counts_of demoChampionRecs ∧
      ∀ q ∈ counts_of demoChampionRecs, q.2 ≤ demoChampion.attendanceCount) :=
  ⟨by decide,
   (C5_champion demoNames demoChampionRecs).2 demoChampion (by decide)⟩

end Arena
